import Mathlib

/-!
Verification of `easy_transformer/components.py` (transformer forward-pass
components: normalization, attention, MLP, transformer blocks).

Embedding conventions:
* Tensors are nested lists of rationals.  The residual stream is a
  `T3 = List (List (List ℚ))` indexed `[batch][pos][feature]`; the attention
  score / pattern tensors are `T4` indexed `[batch][head][query_pos][key_pos]`
  and the q/k/v/z tensors are `T4` indexed `[batch][pos][head][d_head]`.
* Python floats are modelled as exact rationals.  The two irrational
  primitives of the source — `exp` (inside `F.softmax`) and `sqrt`
  (`np.sqrt`, `Tensor.sqrt`) — are abstracted as function parameters
  `E S : ℚ → ℚ`; theorems that need it assume `E` is positive, which the
  real exponential satisfies.
* einsum contractions are written as explicit sums over index ranges, the
  output dimensions being exactly the operand dimensions of the source
  (`cfg` sizes for parameter axes, the input list lengths for batch/pos
  axes).  Out-of-range accesses use default 0; all theorems carry the
  in-bounds hypotheses under which this agrees with the source, in
  particular `pos ≤ n_ctx` where the source slices the attention mask.
* Construction-time `raise` / failed `assert` are modelled with `Except`;
  a hook point is an identity pass-through, and each forward additionally
  returns the list of hook names it invokes, in invocation order.
-/

namespace ET

abbrev Vec := List ℚ
abbrev Mat := List Vec
abbrev T3 := List Mat
abbrev T4 := List T3
abbrev BMat := List (List Bool)

/-- Entry of a vector, defaulting to 0 out of range. -/
def entryV (v : Vec) (i : Nat) : ℚ := v.getD i 0

/-- Entry of a matrix. -/
def entryM (m : Mat) (i j : Nat) : ℚ := entryV (m.getD i []) j

/-- Entry of a rank-3 tensor. -/
def entry3 (t : T3) (i j k : Nat) : ℚ := entryM (t.getD i []) j k

/-- Entry of a rank-4 tensor. -/
def entry4 (t : T4) (i j k l : Nat) : ℚ := entry3 (t.getD i []) j k l

/-- Entry of a boolean matrix, defaulting to `false` out of range. -/
def entryB (m : BMat) (i j : Nat) : Bool := (m.getD i []).getD j false

/-- `t` is a rectangular `b × p × d` tensor. -/
def isRect3 (t : T3) (b p d : Nat) : Prop :=
  t.length = b ∧ ∀ m ∈ t, m.length = p ∧ ∀ v ∈ m, v.length = d

instance (t : T3) (b p d : Nat) : Decidable (isRect3 t b p d) := by
  unfold isRect3; infer_instance

/-- The fields of `EasyTransformerConfig` consumed by the components under
verification.  `normalization_type` and `window_size` are `Option`-valued:
`none` models Python `None` (for `window_size`, any non-`int` value). -/
structure Config where
  d_model : Nat
  n_heads : Nat
  d_head : Nat
  d_mlp : Nat
  n_ctx : Nat
  eps : ℚ
  attention_dir : String
  normalization_type : Option String
  act_fn : String
  use_local_attn : Bool
  attn_types : Option (List String)
  window_size : Option Int
  use_attn_scale : Bool
  use_attn_result : Bool

/-! ### Attention mask construction (`Attention.__init__`, lines 163–179) -/

/-- `torch.tril(torch.ones((n_ctx, n_ctx)).bool())`: entry `(q, k)` is true
iff `k ≤ q`. -/
def causalMaskMat (n : Nat) : BMat :=
  (List.range n).map fun q => (List.range n).map fun k => decide (k ≤ q)

/-- `torch.triu(m, diagonal)`: keep entry `(q, k)` iff `k - q ≥ diagonal`,
zero (false) otherwise. -/
def triuMask (diagonal : Int) (m : BMat) : BMat :=
  (List.range m.length).map fun (q : Nat) =>
    (List.range ((m.getD q []).length)).map fun (k : Nat) =>
      if diagonal ≤ (k : Int) - (q : Int) then (m.getD q []).getD k false else false

/-- The mask branch of `Attention.__init__` (lines 163–177).  `global`
registers the lower-triangular causal mask; `local` asserts
`isinstance(window_size, int)` (modelled: `window_size = some w`) and
registers `torch.triu(causal_mask, 1 - window_size)`; any other attention
type raises `ValueError`.  An `Except.error` means the constructor raised
before the component was usable. -/
def mkAttnMask (cfg : Config) (attn_type : String) : Except String BMat :=
  let causal := causalMaskMat cfg.n_ctx
  if attn_type = "global" then Except.ok causal
  else if attn_type = "local" then
    match cfg.window_size with
    | some w => Except.ok (triuMask (1 - w) causal)
    | none => Except.error "AssertionError: isinstance window_size int"
  else Except.error ("Invalid attention type: " ++ attn_type)

/-- The attention-type selection of `TransformerBlock.__init__` /
`AttnOnlyBlock.__init__` (lines 326–331, 373–378): global unless
`use_local_attn`, in which case `attn_types` must not be `None` (assert)
and is indexed at `block_index` (an out-of-range index is a Python
`IndexError`). -/
def mkBlockAttnType (cfg : Config) (block_index : Nat) : Except String String :=
  if cfg.use_local_attn = false then Except.ok "global"
  else
    match cfg.attn_types with
    | none => Except.error "AssertionError: attn_types is not None"
    | some ts =>
      if h : block_index < ts.length then Except.ok (ts.get ⟨block_index, h⟩)
      else Except.error "IndexError"

/-! ### Normalization (`LayerNormPre.forward` lines 89–97,
`LayerNorm.forward` lines 127–136), stated per feature-axis vector;
`S` abstracts `Tensor.sqrt`. -/

/-- `x.mean(axis=-1)` of one feature vector. -/
def vmean (v : Vec) : ℚ := v.sum / (v.length : ℚ)

/-- `LayerNormPre.forward` on one feature vector:
`x = x - x.mean(-1)`, `scale = (x.pow(2).mean(-1) + eps).sqrt()`,
result `x / scale`.  (`hook_scale` and `hook_normalized` are identity.) -/
def layerNormPreV (S : ℚ → ℚ) (eps : ℚ) (v : Vec) : Vec :=
  let x := v.map fun a => a - vmean v
  let scale := S (vmean (x.map fun a => a ^ 2) + eps)
  x.map fun a => a / scale

/-- `LayerNorm.forward` on one feature vector: the same centering and
rescaling, then `x * self.w + self.b` elementwise. -/
def layerNormV (S : ℚ → ℚ) (eps : ℚ) (w b : Vec) (v : Vec) : Vec :=
  let x := v.map fun a => a - vmean v
  let scale := S (vmean (x.map fun a => a ^ 2) + eps)
  let xn := x.map fun a => a / scale
  (xn.zipWith (fun a wi => a * wi) w).zipWith (fun a bi => a + bi) b

/-- Normalization over `[batch, pos, length]` applies the recipe to each
`[length]` vector. -/
def layerNormPreT (S : ℚ → ℚ) (eps : ℚ) (t : T3) : T3 :=
  t.map fun tb => tb.map (layerNormPreV S eps)

def layerNormT (S : ℚ → ℚ) (eps : ℚ) (w b : Vec) (t : T3) : T3 :=
  t.map fun tb => tb.map (layerNormV S eps w b)

/-! ### Attention forward (`Attention.forward`, lines 194–257) -/

structure AttnParams where
  W_Q : List Mat
  W_K : List Mat
  W_V : List Mat
  W_O : List Mat
  b_Q : Mat
  b_K : Mat
  b_V : Mat
  b_O : Vec

/-- The q/k/v projection einsum
`batch pos d_model, head_index d_model d_head -> batch pos head_index d_head`
plus the per-head bias (lines 195–209).  Output `[batch][pos][head][d_head]`. -/
def projQKV (cfg : Config) (W : List Mat) (b : Mat) (x : T3) : T4 :=
  x.map fun xb => xb.map fun xp =>
    (List.range cfg.n_heads).map fun h =>
      (List.range cfg.d_head).map fun dh =>
        ((List.range cfg.d_model).map fun dm =>
          entryV xp dm * entryM (W.getD h []) dm dh).sum
        + entryM b h dh

/-- `np.sqrt(d_head)` if `use_attn_scale` else `1.0` (lines 181–184). -/
def attnScale (S : ℚ → ℚ) (cfg : Config) : ℚ :=
  if cfg.use_attn_scale then S (cfg.d_head : ℚ) else 1

/-- The score einsum
`batch query_pos head_index d_head, batch key_pos head_index d_head ->
batch head_index query_pos key_pos`, divided by `attn_scale`
(lines 210–215).  Output `[batch][head][query_pos][key_pos]`. -/
def attnScoresT (cfg : Config) (scale : ℚ) (q k : T4) : T4 :=
  (q.zip k).map fun qk =>
    (List.range cfg.n_heads).map fun h =>
      qk.1.map fun qrow => qk.2.map fun krow =>
        ((List.range cfg.d_head).map fun dh =>
          entryM qrow h dh * entryM krow h dh).sum / scale

/-- `Attention.causal_mask` (lines 252–257):
`torch.where(self.mask[:qlen, :klen], attn_scores, self.IGNORE)` with
`IGNORE = -1e5`.  (The source's slice-then-`where` errors when
`qlen > n_ctx`; the index form below agrees with it whenever
`qlen, klen ≤ n_ctx`, which every theorem using it assumes.) -/
def applyCausalMaskT (mask : BMat) (scores : T4) : T4 :=
  scores.map fun sb => sb.map fun sh =>
    (List.range sh.length).map fun qp =>
      (List.range ((sh.getD qp []).length)).map fun kp =>
        if entryB mask qp kp then entryM sh qp kp else -100000

/-- One row of `F.softmax(scores, dim=-1)`, with `E` abstracting `exp`. -/
def softmaxRow (E : ℚ → ℚ) (row : Vec) : Vec :=
  row.map fun s => E s / (row.map E).sum

/-- `F.softmax` over the key-position (last) axis. -/
def softmaxT (E : ℚ → ℚ) (t : T4) : T4 :=
  t.map fun tb => tb.map fun th => th.map (softmaxRow E)

/-- The pre-mask attention scores of a forward call. -/
def rawScores (S : ℚ → ℚ) (cfg : Config) (P : AttnParams) (x : T3) : T4 :=
  attnScoresT cfg (attnScale S cfg)
    (projQKV cfg P.W_Q P.b_Q x) (projQKV cfg P.W_K P.b_K x)

/-- The scores that enter softmax: masked when
`cfg.attention_dir == 'causal'` (lines 216–218), untouched otherwise. -/
def preSoftmaxScores (S : ℚ → ℚ) (cfg : Config) (mask : BMat) (P : AttnParams)
    (x : T3) : T4 :=
  if cfg.attention_dir = "causal"
  then applyCausalMaskT mask (rawScores S cfg P x)
  else rawScores S cfg P x

/-- The value passed through `hook_attn` (lines 219–221): softmax of the
(possibly masked) scores. -/
def attnMatrixT (E S : ℚ → ℚ) (cfg : Config) (mask : BMat) (P : AttnParams)
    (x : T3) : T4 :=
  softmaxT E (preSoftmaxScores S cfg mask P x)

/-- The z einsum
`batch key_pos head_index d_head, batch head_index query_pos key_pos ->
batch query_pos head_index d_head` (lines 222–227). -/
def zT (cfg : Config) (v A : T4) : T4 :=
  (v.zip A).map fun vA =>
    (List.range vA.1.length).map fun qp =>
      (List.range cfg.n_heads).map fun h =>
        (List.range cfg.d_head).map fun dh =>
          ((List.range vA.1.length).map fun kp =>
            entry3 vA.1 kp h dh * entry3 vA.2 h qp kp).sum

/-- Combined head recombination (lines 242–249): the einsum
`batch pos head_index d_head, head_index d_head d_model ->
batch pos d_model` plus `b_O`. -/
def attnOutCombined (cfg : Config) (P : AttnParams) (z : T4) : T3 :=
  z.map fun zb => zb.map fun zp =>
    (List.range cfg.d_model).map fun m =>
      ((List.range cfg.n_heads).map fun h =>
        ((List.range cfg.d_head).map fun dh =>
          entryM zp h dh * entryM (P.W_O.getD h []) dh m).sum).sum
      + entryV P.b_O m

/-- The per-head result tensor passed through `hook_result` (lines 229–235):
einsum `batch pos head_index d_head, head_index d_head d_model ->
batch pos head_index d_model`. -/
def attnResultT (cfg : Config) (P : AttnParams) (z : T4) : T4 :=
  z.map fun zb => zb.map fun zp =>
    (List.range cfg.n_heads).map fun h =>
      (List.range cfg.d_model).map fun m =>
        ((List.range cfg.d_head).map fun dh =>
          entryM zp h dh * entryM (P.W_O.getD h []) dh m).sum

/-- Per-head-preserved recombination (lines 228–241):
`einops.reduce(result, 'batch position index model -> batch position model',
'sum') + b_O`. -/
def attnOutResult (cfg : Config) (P : AttnParams) (z : T4) : T3 :=
  (attnResultT cfg P z).map fun rb => rb.map fun rp =>
    (List.range cfg.d_model).map fun m =>
      ((List.range cfg.n_heads).map fun h => entryM rp h m).sum
      + entryV P.b_O m

/-- `Attention.forward` (lines 194–250): returns the output tensor together
with the names of the hook points it invokes, in invocation order.  Note the
source never invokes `hook_attn_scores` (declared line 190). -/
def attnForward (E S : ℚ → ℚ) (cfg : Config) (mask : BMat) (P : AttnParams)
    (x : T3) : T3 × List String :=
  let v := projQKV cfg P.W_V P.b_V x
  let A := attnMatrixT E S cfg mask P x
  let z := zT cfg v A
  let out := if cfg.use_attn_result then attnOutResult cfg P z
             else attnOutCombined cfg P z
  (out, ["hook_q", "hook_k", "hook_v", "hook_attn", "hook_z"]
        ++ if cfg.use_attn_result then ["hook_result"] else [])

/-! ### MLP (`MLP.forward`, lines 290–301) -/

structure MLPParams where
  W_in : Mat
  b_in : Vec
  W_out : Mat
  b_out : Vec
  ln_w : Vec
  ln_b : Vec

/-- `self.cfg.act_fn.endswith('_ln')`, written over the character list
(`String.endsWith` itself does not reduce in the kernel). -/
def actFnEndsWithLn (s : String) : Bool :=
  decide (s.data.drop (s.data.length - 3) = ['_', 'l', 'n'])

/-- `MLP.forward` on one `[d_model]` vector: in-projection plus bias
(`hook_pre`), elementwise activation (`hook_post`), the extra
`LayerNorm(cfg, d_mlp)` when the activation name ends in `_ln`
(`hook_post_ln`), out-projection plus bias.  `act` abstracts the selected
activation function. -/
def mlpForwardV (act S : ℚ → ℚ) (cfg : Config) (P : MLPParams) (xp : Vec) :
    Vec :=
  let pre := (List.range cfg.d_mlp).map fun j =>
    ((List.range cfg.d_model).map fun i =>
      entryV xp i * entryM P.W_in i j).sum + entryV P.b_in j
  let post := pre.map act
  let post2 := if actFnEndsWithLn cfg.act_fn
               then layerNormV S cfg.eps P.ln_w P.ln_b post
               else post
  (List.range cfg.d_model).map fun m =>
    ((List.range cfg.d_mlp).map fun j =>
      entryV post2 j * entryM P.W_out j m).sum + entryV P.b_out m

def mlpForward (act S : ℚ → ℚ) (cfg : Config) (P : MLPParams) (x : T3) : T3 :=
  x.map fun xb => xb.map (mlpForwardV act S cfg P)

/-! ### Transformer blocks (lines 305–391) -/

/-- Which normalization object `TransformerBlock.__init__` /
`AttnOnlyBlock.__init__` binds to `ln1` (and `ln2`). -/
inductive NormChoice
  | ln
  | lnPre
  | idn
deriving DecidableEq

/-- The normalization branch of the block constructors (lines 311–324,
361–371): an if/elif chain on `normalization_type`.  On an unrecognized
kind it only logs a warning (returned second) and binds nothing — the
`ln1`/`ln2` attributes are left unset, modelled by `none`. -/
def mkNormChoice (nt : Option String) : Option NormChoice × List String :=
  if nt = some "LN" then (some NormChoice.ln, [])
  else if nt = some "LNPre" then (some NormChoice.lnPre, [])
  else if nt = none then (some NormChoice.idn, [])
  else (none, ["Invalid normalization_type passed in " ++ nt.getD ""])

/-- Apply the constructed normalization (`nn.Identity` for `none`). -/
def applyNorm (S : ℚ → ℚ) (cfg : Config) (nc : NormChoice) (w b : Vec)
    (t : T3) : T3 :=
  match nc with
  | NormChoice.ln => layerNormT S cfg.eps w b t
  | NormChoice.lnPre => layerNormPreT S cfg.eps t
  | NormChoice.idn => t

structure BlockParams where
  attn : AttnParams
  mlp : MLPParams
  ln1_w : Vec
  ln1_b : Vec
  ln2_w : Vec
  ln2_b : Vec

/-- The five tensors captured by the hook points of
`TransformerBlock.forward` (lines 340–353). -/
structure BlockTrace where
  resid_pre : T3
  attn_out : T3
  resid_mid : T3
  mlp_out : T3
  resid_post : T3

/-- Elementwise tensor addition (the residual adds of lines 346 and 352). -/
def addT3 (a c : T3) : T3 :=
  List.zipWith (List.zipWith (List.zipWith (· + ·))) a c

/-- Elementwise tensor subtraction (used only in theorem statements). -/
def subT3 (a c : T3) : T3 :=
  List.zipWith (List.zipWith (List.zipWith (· - ·))) a c

/-- `TransformerBlock.forward` (lines 340–353) for a block whose
construction bound a normalization `nc`. -/
def blockForwardT (E S act : ℚ → ℚ) (cfg : Config) (nc : NormChoice)
    (P : BlockParams) (mask : BMat) (x : T3) : BlockTrace :=
  let resid_pre := x
  let normalized_resid_pre := applyNorm S cfg nc P.ln1_w P.ln1_b resid_pre
  let attn_out := (attnForward E S cfg mask P.attn normalized_resid_pre).1
  let resid_mid := addT3 resid_pre attn_out
  let normalized_resid_mid := applyNorm S cfg nc P.ln2_w P.ln2_b resid_mid
  let mlp_out := mlpForward act S cfg P.mlp normalized_resid_mid
  let resid_post := addT3 resid_mid mlp_out
  ⟨resid_pre, attn_out, resid_mid, mlp_out, resid_post⟩

/-- `TransformerBlock.forward` as constructed: when `mkNormChoice` bound no
normalization (unrecognized kind), accessing `self.ln1` raises
`AttributeError`. -/
def blockForwardE (E S act : ℚ → ℚ) (cfg : Config) (nc : Option NormChoice)
    (P : BlockParams) (mask : BMat) (x : T3) : Except String BlockTrace :=
  match nc with
  | none => Except.error "AttributeError: ln1"
  | some c => Except.ok (blockForwardT E S act cfg c P mask x)

structure AttnOnlyTrace where
  resid_pre : T3
  attn_out : T3
  resid_post : T3

/-- `AttnOnlyBlock.forward` (lines 384–391). -/
def attnOnlyForwardT (E S : ℚ → ℚ) (cfg : Config) (nc : NormChoice)
    (ln1_w ln1_b : Vec) (Pa : AttnParams) (mask : BMat) (x : T3) :
    AttnOnlyTrace :=
  let resid_pre := x
  let normalized_resid_pre := applyNorm S cfg nc ln1_w ln1_b resid_pre
  let attn_out := (attnForward E S cfg mask Pa normalized_resid_pre).1
  let resid_post := addT3 resid_pre attn_out
  ⟨resid_pre, attn_out, resid_post⟩

/-! ### Indexing helper lemmas -/

theorem getD_range_map {α : Type} (f : Nat → α) {n i : Nat} (d : α)
    (h : i < n) : ((List.range n).map f).getD i d = f i := by
  rw [List.getD_eq_getElem _ d (by simpa using h)]
  simp

theorem getD_map {α β : Type} (f : α → β) {l : List α} {i : Nat} (d : β)
    (d₀ : α) (h : i < l.length) : (l.map f).getD i d = f (l.getD i d₀) := by
  rw [List.getD_eq_getElem _ d (by simpa using h), List.getD_eq_getElem _ d₀ h]
  simp

theorem getD_zip {α β : Type} {l₁ : List α} {l₂ : List β} {i : Nat}
    (d₁ : α) (d₂ : β) (h₁ : i < l₁.length) (h₂ : i < l₂.length) :
    (l₁.zip l₂).getD i (d₁, d₂) = (l₁.getD i d₁, l₂.getD i d₂) := by
  rw [List.getD_eq_getElem _ _ (by simp; omega),
    List.getD_eq_getElem _ d₁ h₁, List.getD_eq_getElem _ d₂ h₂]
  exact List.getElem_zip

theorem getD_zipWith {α β γ : Type} (f : α → β → γ) {l₁ : List α}
    {l₂ : List β} {i : Nat} (d : γ) (d₁ : α) (d₂ : β)
    (h₁ : i < l₁.length) (h₂ : i < l₂.length) :
    (List.zipWith f l₁ l₂).getD i d = f (l₁.getD i d₁) (l₂.getD i d₂) := by
  rw [List.getD_eq_getElem _ _ (by simp; omega),
    List.getD_eq_getElem _ d₁ h₁, List.getD_eq_getElem _ d₂ h₂]
  exact List.getElem_zipWith

/-! ### Mask shape (claim C5) -/

theorem entryB_causalMaskMat {n q k : Nat} (hq : q < n) (hk : k < n) :
    entryB (causalMaskMat n) q k = decide (k ≤ q) := by
  unfold entryB causalMaskMat
  rw [getD_range_map _ [] hq, getD_range_map _ false hk]

theorem entryB_triu_causal {n q k : Nat} (w : Int) (hq : q < n) (hk : k < n) :
    entryB (triuMask (1 - w) (causalMaskMat n)) q k =
      decide ((q : Int) - w < (k : Int) ∧ k ≤ q) := by
  have hlen : (causalMaskMat n).length = n := by
    unfold causalMaskMat; simp
  have hrow : ((causalMaskMat n).getD q []).length = n := by
    unfold causalMaskMat
    rw [getD_range_map _ [] (by simpa [hlen] using hq)]
    simp
  unfold triuMask entryB
  rw [getD_range_map _ [] (by simpa [hlen] using hq),
    getD_range_map _ false (by rw [hrow]; exact hk)]
  have hmask : ((causalMaskMat n).getD q []).getD k false =
      entryB (causalMaskMat n) q k := rfl
  rw [hmask, entryB_causalMaskMat hq hk]
  by_cases hband : (1 : Int) - w ≤ (k : Int) - (q : Int)
  · rw [if_pos hband]
    by_cases hle : k ≤ q
    · simp [hle]; omega
    · simp [hle]
  · rw [if_neg hband]
    have : ¬ ((q : Int) - w < (k : Int) ∧ k ≤ q) := by omega
    simp [this]

theorem shape_causalMaskMat (n : Nat) :
    (causalMaskMat n).length = n ∧ ∀ r ∈ causalMaskMat n, r.length = n := by
  unfold causalMaskMat
  constructor
  · simp
  · intro r hr
    obtain ⟨q, _, rfl⟩ := List.mem_map.mp hr
    simp

theorem shape_triu_causal (d : Int) (n : Nat) :
    (triuMask d (causalMaskMat n)).length = n ∧
      ∀ r ∈ triuMask d (causalMaskMat n), r.length = n := by
  obtain ⟨h1, h2⟩ := shape_causalMaskMat n
  unfold triuMask
  rw [h1]
  constructor
  · simp
  · intro r hr
    obtain ⟨q, hq, rfl⟩ := List.mem_map.mp hr
    rw [List.mem_range] at hq
    rw [List.length_map, List.length_range,
      List.getD_eq_getElem _ [] (by rw [h1]; exact hq)]
    exact h2 _ (List.getElem_mem _)

/-- A sample config for witnesses: the smallest nontrivial sizes. -/
def cfgBase : Config :=
  { d_model := 1, n_heads := 1, d_head := 1, d_mlp := 1, n_ctx := 3,
    eps := 1 / 100000, attention_dir := "causal",
    normalization_type := some "LNPre", act_fn := "relu",
    use_local_attn := false, attn_types := none, window_size := none,
    use_attn_scale := false, use_attn_result := false }

/-- Config requesting local attention with `window_size = 1`, `n_ctx = 5`. -/
def cfgWin1 : Config :=
  { cfgBase with
    n_ctx := 5,
    use_local_attn := true,
    attn_types := some ["local"],
    window_size := some 1 }

/-- Config requesting local attention with the non-positive
`window_size = 0`. -/
def cfgWin0 : Config :=
  { cfgBase with
    use_local_attn := true,
    attn_types := some ["local"],
    window_size := some 0 }

/-- Claim C5: the mask built at `Attention` construction is an
`n_ctx × n_ctx` boolean tensor; for global attention entry `(q, k)` is true
iff `k ≤ q`; for local attention with integer window size `w` it is true iff
`q − w < k ≤ q`; and with `window_size = 1`, `n_ctx = 5` the local mask is
exactly the 5×5 identity pattern. -/
theorem mask_shape_and_entries :
    (∀ cfg : Config, ∃ m, mkAttnMask cfg "global" = Except.ok m ∧
      m.length = cfg.n_ctx ∧ (∀ r ∈ m, r.length = cfg.n_ctx) ∧
      ∀ q k : Nat, q < cfg.n_ctx → k < cfg.n_ctx →
        entryB m q k = decide (k ≤ q)) ∧
    (∀ (cfg : Config) (w : Int), cfg.window_size = some w →
      ∃ m, mkAttnMask cfg "local" = Except.ok m ∧
      m.length = cfg.n_ctx ∧ (∀ r ∈ m, r.length = cfg.n_ctx) ∧
      ∀ q k : Nat, q < cfg.n_ctx → k < cfg.n_ctx →
        entryB m q k = decide ((q : Int) - w < (k : Int) ∧ k ≤ q)) ∧
    mkAttnMask cfgWin1 "local" = Except.ok
      [[true, false, false, false, false],
       [false, true, false, false, false],
       [false, false, true, false, false],
       [false, false, false, true, false],
       [false, false, false, false, true]] := by
  refine ⟨fun cfg => ⟨causalMaskMat cfg.n_ctx, ?_, ?_, ?_, ?_⟩,
    fun cfg w hw => ⟨triuMask (1 - w) (causalMaskMat cfg.n_ctx), ?_, ?_, ?_, ?_⟩, ?_⟩
  · unfold mkAttnMask
    rw [if_pos rfl]
  · exact (shape_causalMaskMat cfg.n_ctx).1
  · exact (shape_causalMaskMat cfg.n_ctx).2
  · exact fun q k hq hk => entryB_causalMaskMat hq hk
  · unfold mkAttnMask
    rw [if_neg (by decide), if_pos rfl, hw]
  · exact (shape_triu_causal (1 - w) cfg.n_ctx).1
  · exact (shape_triu_causal (1 - w) cfg.n_ctx).2
  · exact fun q k hq hk => entryB_triu_causal w hq hk
  · unfold mkAttnMask
    rw [if_neg (by decide), if_pos rfl,
      show cfgWin1.window_size = some 1 from rfl]
    exact congrArg Except.ok (by decide)

/-- Claim C5 witness: the global-mask clause at `cfgBase`, `q = 2`,
`k = 1`. -/
theorem mask_shape_and_entries_inst :
    ∃ m, mkAttnMask cfgBase "global" = Except.ok m ∧
      m.length = cfgBase.n_ctx ∧ (∀ r ∈ m, r.length = cfgBase.n_ctx) ∧
      ∀ q k : Nat, q < cfgBase.n_ctx → k < cfgBase.n_ctx →
        entryB m q k = decide (k ≤ q) :=
  mask_shape_and_entries.1 cfgBase

/-- Claim C10: constructing an `Attention` with an attention type that is
neither "global" nor "local" raises `ValueError` at construction time: the
constructor returns an error and no component (mask, buffers) is produced. -/
theorem attn_bad_type_errors (cfg : Config) (s : String)
    (h1 : s ≠ "global") (h2 : s ≠ "local") :
    mkAttnMask cfg s = Except.error ("Invalid attention type: " ++ s) := by
  unfold mkAttnMask
  rw [if_neg h1, if_neg h2]

/-- Claim C10 witness: the unrecognized attention type "bogus". -/
theorem attn_bad_type_errors_inst :
    mkAttnMask cfgBase "bogus" =
      Except.error ("Invalid attention type: " ++ "bogus") :=
  attn_bad_type_errors cfgBase "bogus" (by decide) (by decide)

/-- Claim C7 counterexample: with local attention, an attention-span list,
and the non-positive integer `window_size = 0`, construction raises no
error — `TransformerBlock.__init__` selects the "local" type and
`Attention.__init__` builds an (all-false) mask, so the claim that a
non-positive window size errors at construction is false. -/
theorem local_window0_constructs :
    mkBlockAttnType cfgWin0 0 = Except.ok "local" ∧
    mkAttnMask cfgWin0 "local" = Except.ok
      [[false, false, false], [false, false, false], [false, false, false]] := by
  constructor
  · rfl
  · unfold mkAttnMask
    rw [if_neg (by decide), if_pos rfl,
      show cfgWin0.window_size = some 0 from rfl]
    exact congrArg Except.ok (by decide)

/-- Claim C7 amended: requesting local attention without a per-block
attention-span list, or with a non-integer (`None`) window size, errors at
construction; but positivity of the window size is not checked — any
integer `window_size`, positive or not, is accepted and yields a mask. -/
theorem local_attn_construction_errors :
    (∀ (cfg : Config) (i : Nat), cfg.use_local_attn = true →
      cfg.attn_types = none →
      mkBlockAttnType cfg i =
        Except.error "AssertionError: attn_types is not None") ∧
    (∀ cfg : Config, cfg.window_size = none →
      mkAttnMask cfg "local" =
        Except.error "AssertionError: isinstance window_size int") ∧
    (∀ (cfg : Config) (w : Int), cfg.window_size = some w →
      mkAttnMask cfg "local" =
        Except.ok (triuMask (1 - w) (causalMaskMat cfg.n_ctx))) := by
  refine ⟨fun cfg i hu ha => ?_, fun cfg hw => ?_, fun cfg w hw => ?_⟩
  · unfold mkBlockAttnType
    rw [hu, ha]
    rfl
  · unfold mkAttnMask
    rw [if_neg (by decide), if_pos rfl, hw]
  · unfold mkAttnMask
    rw [if_neg (by decide), if_pos rfl, hw]

/-- Claim C7 witness: the missing-span clause at a concrete config. -/
theorem local_attn_construction_errors_inst :
    mkBlockAttnType { cfgBase with use_local_attn := true } 0 =
      Except.error "AssertionError: attn_types is not None" :=
  local_attn_construction_errors.1 { cfgBase with use_local_attn := true } 0
    rfl rfl

/-- Claim C4: on an unrecognized `normalization_type` the block constructor
emits a diagnostic but binds no `ln1`/`ln2`, and the forward call then
raises `AttributeError` — it does not fall back to identity
normalization. -/
theorem block_bad_norm_forward_fails (nt : Option String) (s : String)
    (hnt : nt = some s) (h1 : s ≠ "LN") (h2 : s ≠ "LNPre") :
    (mkNormChoice nt).1 = none ∧ (mkNormChoice nt).2 ≠ [] ∧
    ∀ (E S act : ℚ → ℚ) (cfg : Config) (P : BlockParams) (mask : BMat)
      (x : T3), blockForwardE E S act cfg (mkNormChoice nt).1 P mask x =
        Except.error "AttributeError: ln1" := by
  subst hnt
  have e : mkNormChoice (some s) =
      (none, ["Invalid normalization_type passed in " ++ s]) := by
    unfold mkNormChoice
    rw [if_neg (fun h => h1 (Option.some.inj h)),
      if_neg (fun h => h2 (Option.some.inj h)), if_neg (by simp)]
    rfl
  rw [e]
  exact ⟨rfl, by simp, fun E S act cfg P mask x => rfl⟩

/-- Claim C4 witness: the unrecognized normalization type "LNMid". -/
theorem block_bad_norm_forward_fails_inst :
    (mkNormChoice (some "LNMid")).1 = none ∧
    (mkNormChoice (some "LNMid")).2 ≠ [] ∧
    ∀ (E S act : ℚ → ℚ) (cfg : Config) (P : BlockParams) (mask : BMat)
      (x : T3),
      blockForwardE E S act cfg (mkNormChoice (some "LNMid")).1 P mask x =
        Except.error "AttributeError: ln1" :=
  block_bad_norm_forward_fails (some "LNMid") "LNMid" rfl (by decide)
    (by decide)

/-! ### Normalization formula (claim C6) -/

/-- The normalization recipe as the spec words it: centered value divided by
`sqrt` of (mean of squared centered values plus `eps`), the `eps` added
inside the square root.  This is the spec-side definition that the two
source variants are compared against. -/
def specNormalizedEntry (S : ℚ → ℚ) (eps : ℚ) (v : Vec) (i : Nat) : ℚ :=
  (entryV v i - vmean v) / S (vmean (v.map fun a => (a - vmean v) ^ 2) + eps)

/-- Claim C6: for every input vector, `LayerNormPre.forward` computes
exactly the spec's normalized value (for every sqrt function `S`, so the
`eps` sits inside the argument of the square root), and `LayerNorm.forward`
computes the same value additionally multiplied by the per-feature scale
`w` and shifted by the per-feature bias `b`. -/
theorem layernorm_matches_spec (S : ℚ → ℚ) (eps : ℚ) (w b v : Vec) (i : Nat)
    (hv : i < v.length) (hw : i < w.length) (hb : i < b.length) :
    entryV (layerNormPreV S eps v) i = specNormalizedEntry S eps v i ∧
    entryV (layerNormV S eps w b v) i =
      specNormalizedEntry S eps v i * entryV w i + entryV b i := by
  have hx : (v.map fun a => a - vmean v).length = v.length := by simp
  have hscale : (vmean ((v.map fun a => a - vmean v).map fun a => a ^ 2)) =
      vmean (v.map fun a => (a - vmean v) ^ 2) := by
    rw [List.map_map]
    rfl
  have hpre : entryV (layerNormPreV S eps v) i =
      specNormalizedEntry S eps v i := by
    unfold layerNormPreV specNormalizedEntry entryV
    rw [getD_map _ 0 0 (by rw [hx]; exact hv), getD_map _ 0 0 hv, hscale]
  refine ⟨hpre, ?_⟩
  unfold layerNormV entryV
  rw [getD_zipWith _ 0 0 0 (by simp; omega) hb,
    getD_zipWith _ 0 0 0 (by simp; omega) hw,
    getD_map _ 0 0 (by rw [hx]; exact hv)]
  have : (v.map fun a => a - vmean v).getD i 0 /
        S (vmean ((v.map fun a => a - vmean v).map fun a => a ^ 2) + eps) =
      specNormalizedEntry S eps v i := by
    unfold specNormalizedEntry entryV
    rw [getD_map _ 0 0 hv, hscale]
  rw [this]

/-- Claim C6 witness: concrete vectors at `i = 1`. -/
theorem layernorm_matches_spec_inst :
    entryV (layerNormPreV (fun a => a) (1 / 2) [1, 2, 4]) 1 =
      specNormalizedEntry (fun a => a) (1 / 2) [1, 2, 4] 1 ∧
    entryV (layerNormV (fun a => a) (1 / 2) [3, 5, 7] [2, 4, 6] [1, 2, 4]) 1 =
      specNormalizedEntry (fun a => a) (1 / 2) [1, 2, 4] 1 *
        entryV [3, 5, 7] 1 + entryV [2, 4, 6] 1 :=
  layernorm_matches_spec (fun a => a) (1 / 2) [3, 5, 7] [2, 4, 6] [1, 2, 4] 1
    (by decide) (by decide) (by decide)

/-! ### The attention-scores hook (claim C2) -/

/-- Claim C2 (code behavior): `Attention.forward` never invokes
`hook_attn_scores` — the hook point is declared in `__init__` (line 190)
but the forward pass (lines 194–250) never passes the score tensor through
it, for causal as for bidirectional attention, so the invocation count is
0, not the claimed 1. -/
theorem hook_attn_scores_never_invoked (E S : ℚ → ℚ) (cfg : Config)
    (mask : BMat) (P : AttnParams) (x : T3) :
    (attnForward E S cfg mask P x).2.count "hook_attn_scores" = 0 := by
  show (["hook_q", "hook_k", "hook_v", "hook_attn", "hook_z"]
      ++ if cfg.use_attn_result then ["hook_result"] else []).count
      "hook_attn_scores" = 0
  cases cfg.use_attn_result <;> decide

/-! ### Head-recombination equivalence (claim C3) -/

theorem attnOutResult_eq_combined (cfg : Config) (P : AttnParams) (z : T4) :
    attnOutResult cfg P z = attnOutCombined cfg P z := by
  unfold attnOutResult attnResultT attnOutCombined
  rw [List.map_map]
  refine List.map_congr_left fun zb _ => ?_
  show (zb.map _).map _ = zb.map _
  rw [List.map_map]
  refine List.map_congr_left fun zp _ => ?_
  show (List.range cfg.d_model).map _ = (List.range cfg.d_model).map _
  refine List.map_congr_left fun m hm => ?_
  rw [List.mem_range] at hm
  have : ∀ h ∈ List.range cfg.n_heads,
      entryM (((List.range cfg.n_heads).map fun h2 =>
        (List.range cfg.d_model).map fun m2 =>
          ((List.range cfg.d_head).map fun dh =>
            entryM zp h2 dh * entryM (P.W_O.getD h2 []) dh m2).sum) : Mat)
        h m =
      ((List.range cfg.d_head).map fun dh =>
        entryM zp h dh * entryM (P.W_O.getD h []) dh m).sum := by
    intro h hh
    rw [List.mem_range] at hh
    unfold entryM entryV
    rw [getD_range_map _ [] hh, getD_range_map _ 0 hm]
  rw [List.map_congr_left this]

/-- Claim C3: for identical inputs and parameters, `Attention.forward`
returns the same output tensor (over exact arithmetic) with
`use_attn_result` enabled (per-head contributions to `d_model`, summed over
heads, plus `b_O`) as with it disabled (direct contraction of z with `W_O`
plus `b_O`). -/
theorem attn_result_mode_equiv (E S : ℚ → ℚ) (cfg : Config) (mask : BMat)
    (P : AttnParams) (x : T3) :
    (attnForward E S { cfg with use_attn_result := true } mask P x).1 =
    (attnForward E S { cfg with use_attn_result := false } mask P x).1 := by
  show attnOutResult { cfg with use_attn_result := true } P _ =
    attnOutCombined { cfg with use_attn_result := false } P _
  exact attnOutResult_eq_combined { cfg with use_attn_result := true } P _

/-! ### Masked softmax weights (claim C1) -/

/-- One key-position row of a `[batch][head][query_pos][key_pos]` tensor. -/
def row4 (t : T4) (b h qp : Nat) : Vec := ((t.getD b []).getD h []).getD qp []

theorem entry4_eq_row4 (t : T4) (b h qp kp : Nat) :
    entry4 t b h qp kp = entryV (row4 t b h qp) kp := rfl

theorem row4_softmaxT (E : ℚ → ℚ) (t : T4) {b h qp : Nat}
    (hb : b < t.length) (hh : h < (t.getD b []).length)
    (hq : qp < ((t.getD b []).getD h []).length) :
    row4 (softmaxT E t) b h qp = softmaxRow E (row4 t b h qp) := by
  unfold softmaxT row4
  rw [getD_map _ [] [] hb, getD_map _ [] [] hh, getD_map _ [] [] hq]

/-- Shape of `rawScores`: one entry per batch element. -/
theorem length_rawScores (S : ℚ → ℚ) (cfg : Config) (P : AttnParams)
    (x : T3) : (rawScores S cfg P x).length = x.length := by
  unfold rawScores attnScoresT projQKV
  simp

theorem getD_rawScores (S : ℚ → ℚ) (cfg : Config) (P : AttnParams) (x : T3)
    {b : Nat} (hb : b < x.length) :
    (rawScores S cfg P x).getD b [] =
      (List.range cfg.n_heads).map fun h =>
        ((projQKV cfg P.W_Q P.b_Q x).getD b []).map fun qrow =>
          ((projQKV cfg P.W_K P.b_K x).getD b []).map fun krow =>
            ((List.range cfg.d_head).map fun dh =>
              entryM qrow h dh * entryM krow h dh).sum / attnScale S cfg := by
  unfold rawScores attnScoresT
  rw [getD_map _ [] ([], []) (by simp [projQKV]; omega),
    getD_zip [] [] (by simpa [projQKV] using hb) (by simpa [projQKV] using hb)]

theorem length_getD_projQKV (cfg : Config) (W : List Mat) (bs : Mat) (x : T3)
    {b : Nat} (hb : b < x.length) :
    ((projQKV cfg W bs x).getD b []).length = (x.getD b []).length := by
  unfold projQKV
  rw [getD_map _ [] [] hb]
  simp

/-- The head-`h` score matrix of a raw-scores batch element, as the map
over query rows and key rows of the scaled dot product. -/
theorem row4_rawScores (S : ℚ → ℚ) (cfg : Config) (P : AttnParams) (x : T3)
    {b h qp : Nat} (hb : b < x.length) (hh : h < cfg.n_heads)
    (hq : qp < (x.getD b []).length) :
    row4 (rawScores S cfg P x) b h qp =
      ((projQKV cfg P.W_K P.b_K x).getD b []).map fun krow =>
        ((List.range cfg.d_head).map fun dh =>
          entryM (((projQKV cfg P.W_Q P.b_Q x).getD b []).getD qp []) h dh *
            entryM krow h dh).sum / attnScale S cfg := by
  unfold row4
  rw [getD_rawScores S cfg P x hb, getD_range_map _ [] hh,
    getD_map _ [] [] (by rw [length_getD_projQKV cfg P.W_Q P.b_Q x hb]; exact hq)]

theorem length_row4_rawScores (S : ℚ → ℚ) (cfg : Config) (P : AttnParams)
    (x : T3) {b h qp : Nat} (hb : b < x.length) (hh : h < cfg.n_heads)
    (hq : qp < (x.getD b []).length) :
    (row4 (rawScores S cfg P x) b h qp).length = (x.getD b []).length := by
  rw [row4_rawScores S cfg P x hb hh hq, List.length_map,
    length_getD_projQKV cfg P.W_K P.b_K x hb]

theorem length_getD_rawScores (S : ℚ → ℚ) (cfg : Config) (P : AttnParams)
    (x : T3) {b : Nat} (hb : b < x.length) :
    ((rawScores S cfg P x).getD b []).length = cfg.n_heads := by
  rw [getD_rawScores S cfg P x hb]
  simp

theorem length_getD2_rawScores (S : ℚ → ℚ) (cfg : Config) (P : AttnParams)
    (x : T3) {b h : Nat} (hb : b < x.length) (hh : h < cfg.n_heads) :
    (((rawScores S cfg P x).getD b []).getD h []).length =
      (x.getD b []).length := by
  rw [getD_rawScores S cfg P x hb, getD_range_map _ [] hh, List.length_map,
    length_getD_projQKV cfg P.W_Q P.b_Q x hb]

/-- The masked row at `(b, h, qp)`: each in-range key position is the raw
score where the mask is true and the sentinel `-1e5` where it is false. -/
theorem row4_applyCausalMaskT (mask : BMat) (s : T4) {b h qp : Nat}
    (hb : b < s.length) (hh : h < (s.getD b []).length)
    (hq : qp < ((s.getD b []).getD h []).length) :
    row4 (applyCausalMaskT mask s) b h qp =
      (List.range ((((s.getD b []).getD h []).getD qp []).length)).map
        fun kp => if entryB mask qp kp
          then entryM ((s.getD b []).getD h []) qp kp else -100000 := by
  unfold applyCausalMaskT row4
  rw [getD_map _ [] [] hb, getD_map _ [] [] hh, getD_range_map _ [] hq]

/-- Claim C1 amended: in a causal forward call, for key position `kp` after
query position `qp`, the score entering softmax is exactly the sentinel
`-1e5` (whatever the raw score was), and the post-softmax weight —
for any positive softmax exponential `E`, as the real `exp` is — equals
`E (-1e5)` over the row sum, which is strictly positive, not exactly 0. -/
theorem masked_weight_is_sentinel_softmax (E S : ℚ → ℚ)
    (hE : ∀ s, 0 < E s) (cfg : Config) (P : AttnParams) (x : T3)
    (hdir : cfg.attention_dir = "causal") {b h qp kp : Nat}
    (hb : b < x.length) (hh : h < cfg.n_heads)
    (hq : qp < (x.getD b []).length) (hk : kp < (x.getD b []).length)
    (hctx : (x.getD b []).length ≤ cfg.n_ctx) (hlt : qp < kp) :
    entry4 (preSoftmaxScores S cfg (causalMaskMat cfg.n_ctx) P x) b h qp kp
      = -100000 ∧
    entry4 (attnMatrixT E S cfg (causalMaskMat cfg.n_ctx) P x) b h qp kp =
      E (-100000) /
        ((row4 (preSoftmaxScores S cfg (causalMaskMat cfg.n_ctx) P x)
          b h qp).map E).sum ∧
    0 < entry4 (attnMatrixT E S cfg (causalMaskMat cfg.n_ctx) P x)
      b h qp kp := by
  have hM : preSoftmaxScores S cfg (causalMaskMat cfg.n_ctx) P x =
      applyCausalMaskT (causalMaskMat cfg.n_ctx) (rawScores S cfg P x) := by
    unfold preSoftmaxScores
    rw [hdir, if_pos rfl]
  have hb2 : b < (rawScores S cfg P x).length := by
    rw [length_rawScores]; exact hb
  have hh2 : h < ((rawScores S cfg P x).getD b []).length := by
    rw [length_getD_rawScores S cfg P x hb]; exact hh
  have hq2 : qp < (((rawScores S cfg P x).getD b []).getD h []).length := by
    rw [length_getD2_rawScores S cfg P x hb hh]; exact hq
  have hrowlen : ((((rawScores S cfg P x).getD b []).getD h []).getD qp
      []).length = (x.getD b []).length := by
    exact length_row4_rawScores S cfg P x hb hh hq
  have hmaskfalse : entryB (causalMaskMat cfg.n_ctx) qp kp = false := by
    rw [entryB_causalMaskMat (lt_of_lt_of_le hq hctx)
      (lt_of_lt_of_le hk hctx)]
    simp
    omega
  have hrowM : row4 (preSoftmaxScores S cfg (causalMaskMat cfg.n_ctx) P x)
      b h qp = (List.range ((x.getD b []).length)).map fun kp2 =>
        if entryB (causalMaskMat cfg.n_ctx) qp kp2
        then entryM (((rawScores S cfg P x).getD b []).getD h []) qp kp2
        else -100000 := by
    rw [hM, row4_applyCausalMaskT _ _ hb2 hh2 hq2, hrowlen]
  have hsent : entry4 (preSoftmaxScores S cfg (causalMaskMat cfg.n_ctx) P x)
      b h qp kp = -100000 := by
    rw [entry4_eq_row4, hrowM]
    unfold entryV
    rw [getD_range_map _ 0 hk, hmaskfalse]
    rfl
  have hlenrowM : (row4 (preSoftmaxScores S cfg (causalMaskMat cfg.n_ctx)
      P x) b h qp).length = (x.getD b []).length := by
    rw [hrowM]
    simp
  have hA : row4 (attnMatrixT E S cfg (causalMaskMat cfg.n_ctx) P x) b h qp
      = softmaxRow E
        (row4 (preSoftmaxScores S cfg (causalMaskMat cfg.n_ctx) P x)
          b h qp) := by
    unfold attnMatrixT
    refine row4_softmaxT E _ ?_ ?_ ?_
    · rw [hM]
      unfold applyCausalMaskT
      rw [List.length_map]
      exact hb2
    · rw [hM]
      unfold applyCausalMaskT
      rw [getD_map _ [] [] hb2, List.length_map]
      exact hh2
    · rw [hM]
      unfold applyCausalMaskT
      rw [getD_map _ [] [] hb2, getD_map _ [] [] hh2, List.length_map,
        List.length_range]
      exact hq2
  have hweight : entry4 (attnMatrixT E S cfg (causalMaskMat cfg.n_ctx) P x)
      b h qp kp = E (-100000) /
        ((row4 (preSoftmaxScores S cfg (causalMaskMat cfg.n_ctx) P x)
          b h qp).map E).sum := by
    rw [entry4_eq_row4, hA]
    unfold softmaxRow entryV
    rw [getD_map _ 0 0 (by rw [hlenrowM]; exact hk)]
    have : (row4 (preSoftmaxScores S cfg (causalMaskMat cfg.n_ctx) P x)
        b h qp).getD kp 0 = -100000 := hsent
    rw [this]
  refine ⟨hsent, hweight, ?_⟩
  rw [hweight]
  refine div_pos (hE _) (List.sum_pos _ ?_ ?_)
  · intro y hy
    obtain ⟨a, _, rfl⟩ := List.mem_map.mp hy
    exact hE a
  · have : 0 < (row4 (preSoftmaxScores S cfg (causalMaskMat cfg.n_ctx) P x)
        b h qp).length := by
      rw [hlenrowM]
      omega
    intro hnil
    rw [List.map_eq_nil_iff] at hnil
    rw [hnil] at this
    simp at this

/-- All-zero attention parameters for one head with
`d_model = d_head = 1`. -/
def attnP0 : AttnParams :=
  { W_Q := [[[0]]], W_K := [[[0]]], W_V := [[[0]]], W_O := [[[0]]],
    b_Q := [[0]], b_K := [[0]], b_V := [[0]], b_O := [0] }

/-- One batch element, two positions, `d_model = 1`. -/
def x0 : T3 := [[[0], [0]]]

/-- All-zero MLP parameters with `d_model = d_mlp = 1`. -/
def mlpP0 : MLPParams :=
  { W_in := [[0]], b_in := [0], W_out := [[0]], b_out := [0],
    ln_w := [1], ln_b := [0] }

/-- Concrete block parameters matching `cfgBase`. -/
def blockP0 : BlockParams :=
  { attn := attnP0, mlp := mlpP0, ln1_w := [1], ln1_b := [0],
    ln2_w := [1], ln2_b := [0] }

/-- Claim C1 counterexample: in exact arithmetic the post-softmax weight at
the masked position `(q, k) = (0, 1)` is `1/2` for the positive softmax
exponential `E = const 1`, not 0 — softmax of the finite sentinel `-1e5`
is a positive number, and only floating-point underflow of `exp` makes it
read as exactly 0. -/
theorem masked_weight_not_zero :
    (∀ s : ℚ, 0 < (fun _ : ℚ => (1 : ℚ)) s) ∧
    entry4 (attnMatrixT (fun _ : ℚ => (1 : ℚ)) (fun _ : ℚ => (1 : ℚ))
      cfgBase (causalMaskMat cfgBase.n_ctx) attnP0 x0) 0 0 0 1 = 1 / 2 ∧
    (1 : ℚ) / 2 ≠ 0 := by
  refine ⟨fun s => one_pos, ?_, by norm_num⟩
  show entry4 (attnMatrixT (fun _ : ℚ => (1 : ℚ)) (fun _ : ℚ => (1 : ℚ))
    cfgBase (causalMaskMat 3) attnP0 x0) 0 0 0 1 = 1 / 2
  norm_num [attnMatrixT, preSoftmaxScores, rawScores, attnScoresT, projQKV,
    applyCausalMaskT, softmaxT, softmaxRow, attnScale, entry4, entry3,
    entryM, entryV, entryB, causalMaskMat, cfgBase, x0, attnP0,
    List.range_succ]

/-- Claim C1 witness: the amended statement at the concrete causal config
`cfgBase`, parameters `attnP0`, input `x0`, positions `(q, k) = (0, 1)`. -/
theorem masked_weight_is_sentinel_softmax_inst :
    entry4 (preSoftmaxScores (fun _ : ℚ => (1 : ℚ)) cfgBase
      (causalMaskMat cfgBase.n_ctx) attnP0 x0) 0 0 0 1 = -100000 ∧
    entry4 (attnMatrixT (fun _ : ℚ => (2 : ℚ)) (fun _ : ℚ => (1 : ℚ))
      cfgBase (causalMaskMat cfgBase.n_ctx) attnP0 x0) 0 0 0 1 =
      (fun _ : ℚ => (2 : ℚ)) (-100000) /
        ((row4 (preSoftmaxScores (fun _ : ℚ => (1 : ℚ)) cfgBase
          (causalMaskMat cfgBase.n_ctx) attnP0 x0) 0 0 0).map
          (fun _ : ℚ => (2 : ℚ))).sum ∧
    0 < entry4 (attnMatrixT (fun _ : ℚ => (2 : ℚ)) (fun _ : ℚ => (1 : ℚ))
      cfgBase (causalMaskMat cfgBase.n_ctx) attnP0 x0) 0 0 0 1 :=
  masked_weight_is_sentinel_softmax (fun _ : ℚ => (2 : ℚ))
    (fun _ : ℚ => (1 : ℚ)) (fun s => two_pos) cfgBase attnP0 x0 rfl
    (by decide) (by decide) (by decide) (by decide) (by decide) (by decide)

/-! ### Shape infrastructure for the block theorems (claims C8, C9) -/

theorem mem_zipWith_exists {α β γ : Type} (f : α → β → γ) :
    ∀ (l₁ : List α) (l₂ : List β) (c : γ), c ∈ List.zipWith f l₁ l₂ →
      ∃ a, a ∈ l₁ ∧ ∃ b, b ∈ l₂ ∧ c = f a b := by
  intro l₁
  induction l₁ with
  | nil => simp
  | cons a t ih =>
    intro l₂ c hc
    cases l₂ with
    | nil => simp at hc
    | cons b s =>
      rw [List.zipWith_cons_cons, List.mem_cons] at hc
      rcases hc with hc | hc
      · exact ⟨a, List.mem_cons_self a t, b, List.mem_cons_self b s, hc⟩
      · obtain ⟨a2, ha2, b2, hb2, rfl⟩ := ih s c hc
        exact ⟨a2, List.mem_cons_of_mem a ha2, b2,
          List.mem_cons_of_mem b hb2, rfl⟩

theorem forall₂_of_mem {α β : Type} {R : α → β → Prop} :
    ∀ (a : List α) (y : List β), a.length = y.length →
      (∀ r ∈ a, ∀ s ∈ y, R r s) → List.Forall₂ R a y := by
  intro a
  induction a with
  | nil =>
    intro y hlen _
    cases y with
    | nil => exact List.Forall₂.nil
    | cons s t => simp at hlen
  | cons r t ih =>
    intro y hlen hmem
    cases y with
    | nil => simp at hlen
    | cons s u =>
      refine List.Forall₂.cons
        (hmem r (List.mem_cons_self r t) s (List.mem_cons_self s u)) ?_
      refine ih u (by simpa using hlen) fun r2 hr2 s2 hs2 => ?_
      exact hmem r2 (List.mem_cons_of_mem r hr2) s2 (List.mem_cons_of_mem s hs2)

theorem cancel_vec : ∀ (a y : Vec), a.length = y.length →
    List.zipWith (· - ·) (List.zipWith (· + ·) a y) a = y := by
  intro a
  induction a with
  | nil =>
    intro y hlen
    cases y with
    | nil => rfl
    | cons s u => simp at hlen
  | cons r t ih =>
    intro y hlen
    cases y with
    | nil => simp at hlen
    | cons s u =>
      rw [List.zipWith_cons_cons, List.zipWith_cons_cons,
        ih u (by simpa using hlen)]
      rw [add_sub_cancel_left]

theorem cancel_mat : ∀ (a y : Mat),
    List.Forall₂ (fun r s => r.length = s.length) a y →
    List.zipWith (List.zipWith (· - ·))
      (List.zipWith (List.zipWith (· + ·)) a y) a = y := by
  intro a y h
  induction h with
  | nil => rfl
  | cons hr _ ih =>
    rw [List.zipWith_cons_cons, List.zipWith_cons_cons, ih, cancel_vec _ _ hr]

theorem cancel_t3 : ∀ (a y : T3),
    List.Forall₂ (fun ab yb =>
      List.Forall₂ (fun r s => r.length = s.length) ab yb) a y →
    subT3 (addT3 a y) a = y := by
  intro a y h
  unfold subT3 addT3
  induction h with
  | nil => rfl
  | cons hr _ ih =>
    rw [List.zipWith_cons_cons, List.zipWith_cons_cons, ih, cancel_mat _ _ hr]

theorem rect_forall₂ {a y : T3} {nb np nd : Nat} (ha : isRect3 a nb np nd)
    (hy : isRect3 y nb np nd) :
    List.Forall₂ (fun ab yb =>
      List.Forall₂ (fun r s => r.length = s.length) ab yb) a y := by
  refine forall₂_of_mem a y (ha.1.trans hy.1.symm) fun ab hab yb hyb => ?_
  refine forall₂_of_mem ab yb
    (((ha.2 ab hab).1).trans ((hy.2 yb hyb).1).symm) fun r hr s hs => ?_
  rw [(ha.2 ab hab).2 r hr, (hy.2 yb hyb).2 s hs]

theorem sub_add_cancel_t3 {a y : T3} {nb np nd : Nat}
    (ha : isRect3 a nb np nd) (hy : isRect3 y nb np nd) :
    subT3 (addT3 a y) a = y :=
  cancel_t3 a y (rect_forall₂ ha hy)

theorem rect_addT3 {a y : T3} {nb np nd : Nat} (ha : isRect3 a nb np nd)
    (hy : isRect3 y nb np nd) : isRect3 (addT3 a y) nb np nd := by
  refine ⟨by simp [addT3, ha.1, hy.1], fun m hm => ?_⟩
  obtain ⟨ab, hab, yb, hyb, rfl⟩ := mem_zipWith_exists _ a y m hm
  refine ⟨by simp [(ha.2 ab hab).1, (hy.2 yb hyb).1], fun v hv => ?_⟩
  obtain ⟨r, hr, s, hs, rfl⟩ := mem_zipWith_exists _ ab yb v hv
  simp [(ha.2 ab hab).2 r hr, (hy.2 yb hyb).2 s hs]

theorem shape_attnMatrixT (E S : ℚ → ℚ) (cfg : Config) (mask : BMat)
    (P : AttnParams) (x : T3) :
    (attnMatrixT E S cfg mask P x).length = x.length := by
  unfold attnMatrixT softmaxT preSoftmaxScores
  by_cases hdir : cfg.attention_dir = "causal"
  · simp [hdir, applyCausalMaskT, length_rawScores]
  · simp [hdir, length_rawScores]

theorem shape_attnForward (E S : ℚ → ℚ) (cfg : Config) (mask : BMat)
    (P : AttnParams) (x : T3) {nb np nd : Nat} (hx : isRect3 x nb np nd) :
    isRect3 ((attnForward E S cfg mask P x).1) nb np cfg.d_model := by
  have hv_len : (projQKV cfg P.W_V P.b_V x).length = nb := by
    simp [projQKV, hx.1]
  have hv_mem : ∀ vb ∈ projQKV cfg P.W_V P.b_V x, vb.length = np := by
    intro vb hvb
    obtain ⟨xb, hxb, rfl⟩ := List.mem_map.mp hvb
    simp [(hx.2 xb hxb).1]
  have hA_len : (attnMatrixT E S cfg mask P x).length = nb := by
    rw [shape_attnMatrixT, hx.1]
  have hz_len :
      (zT cfg (projQKV cfg P.W_V P.b_V x) (attnMatrixT E S cfg mask P x)).length
        = nb := by
    unfold zT
    rw [List.length_map, List.length_zip, hv_len, hA_len, Nat.min_self]
  have hz_mem : ∀ zb ∈ zT cfg (projQKV cfg P.W_V P.b_V x)
      (attnMatrixT E S cfg mask P x), zb.length = np := by
    intro zb hzb
    obtain ⟨vA, hvA, rfl⟩ := List.mem_map.mp hzb
    obtain ⟨v1, A1⟩ := vA
    rw [List.length_map, List.length_range]
    exact hv_mem v1 (List.of_mem_zip hvA).1
  have hcomb : ∀ z2 : T4, z2.length = nb → (∀ zb ∈ z2, zb.length = np) →
      isRect3 (attnOutCombined cfg P z2) nb np cfg.d_model := by
    intro z2 h1 h2
    refine ⟨by simp [attnOutCombined, h1], fun m hm => ?_⟩
    obtain ⟨zb, hzb, rfl⟩ := List.mem_map.mp hm
    refine ⟨by simp [h2 zb hzb], fun v hv => ?_⟩
    obtain ⟨zp, _, rfl⟩ := List.mem_map.mp hv
    simp
  have hres : ∀ z2 : T4, z2.length = nb → (∀ zb ∈ z2, zb.length = np) →
      isRect3 (attnOutResult cfg P z2) nb np cfg.d_model := by
    intro z2 h1 h2
    refine ⟨by simp [attnOutResult, attnResultT, h1], fun m hm => ?_⟩
    unfold attnOutResult attnResultT at hm
    rw [List.map_map, List.mem_map] at hm
    obtain ⟨zb, hzb, rfl⟩ := hm
    refine ⟨by simp [h2 zb hzb], fun v hv => ?_⟩
    simp only [Function.comp, List.map_map, List.mem_map] at hv
    obtain ⟨zp, _, rfl⟩ := hv
    simp
  unfold attnForward
  dsimp only
  split
  · exact hres _ hz_len hz_mem
  · exact hcomb _ hz_len hz_mem

theorem shape_applyNorm (S : ℚ → ℚ) (cfg : Config) (nc : NormChoice)
    (w b : Vec) {t : T3} {nb np : Nat} (hw : w.length = cfg.d_model)
    (hb : b.length = cfg.d_model) (ht : isRect3 t nb np cfg.d_model) :
    isRect3 (applyNorm S cfg nc w b t) nb np cfg.d_model := by
  cases nc with
  | ln =>
    refine ⟨by simp [applyNorm, layerNormT, ht.1], fun m hm => ?_⟩
    simp only [applyNorm, layerNormT, List.mem_map] at hm
    obtain ⟨tb, htb, rfl⟩ := hm
    refine ⟨by simp [(ht.2 tb htb).1], fun v hv => ?_⟩
    obtain ⟨tp, htp, rfl⟩ := List.mem_map.mp hv
    simp [layerNormV, (ht.2 tb htb).2 tp htp, hw, hb]
  | lnPre =>
    refine ⟨by simp [applyNorm, layerNormPreT, ht.1], fun m hm => ?_⟩
    simp only [applyNorm, layerNormPreT, List.mem_map] at hm
    obtain ⟨tb, htb, rfl⟩ := hm
    refine ⟨by simp [(ht.2 tb htb).1], fun v hv => ?_⟩
    obtain ⟨tp, htp, rfl⟩ := List.mem_map.mp hv
    simp [layerNormPreV, (ht.2 tb htb).2 tp htp]
  | idn => exact ht

theorem shape_mlpForward (act S : ℚ → ℚ) (cfg : Config) (P : MLPParams)
    {t : T3} {nb np nd : Nat} (ht : isRect3 t nb np nd) :
    isRect3 (mlpForward act S cfg P t) nb np cfg.d_model := by
  refine ⟨by simp [mlpForward, ht.1], fun m hm => ?_⟩
  simp only [mlpForward, List.mem_map] at hm
  obtain ⟨tb, htb, rfl⟩ := hm
  refine ⟨by simp [(ht.2 tb htb).1], fun v hv => ?_⟩
  obtain ⟨tp, _, rfl⟩ := List.mem_map.mp hv
  simp [mlpForwardV]

/-- The parameter shapes `TransformerBlock.__init__` fixes by construction
(`torch.ones(length)` / `torch.zeros(length)` for each LayerNorm). -/
def BlockParamsWF (cfg : Config) (P : BlockParams) : Prop :=
  P.ln1_w.length = cfg.d_model ∧ P.ln1_b.length = cfg.d_model ∧
  P.ln2_w.length = cfg.d_model ∧ P.ln2_b.length = cfg.d_model ∧
  P.mlp.ln_w.length = cfg.d_mlp ∧ P.mlp.ln_b.length = cfg.d_mlp

instance (cfg : Config) (P : BlockParams) : Decidable (BlockParamsWF cfg P) := by
  unfold BlockParamsWF
  infer_instance

/-- Claim C8: in every `TransformerBlock.forward` call (on a well-formed
input within context length), the tensor captured at `hook_resid_mid`
minus the tensor captured at `hook_resid_pre` equals the tensor captured
at `hook_attn_out` exactly: `resid_mid = resid_pre + attn_out` with
nothing else added. -/
theorem resid_mid_additivity (E S act : ℚ → ℚ) (cfg : Config)
    (nc : NormChoice) (P : BlockParams) (mask : BMat) (x : T3)
    (nb np : Nat) (hx : isRect3 x nb np cfg.d_model) (_hnp : np ≤ cfg.n_ctx)
    (hWF : BlockParamsWF cfg P) :
    subT3 (blockForwardT E S act cfg nc P mask x).resid_mid
      (blockForwardT E S act cfg nc P mask x).resid_pre =
    (blockForwardT E S act cfg nc P mask x).attn_out := by
  have hattn : isRect3 ((attnForward E S cfg mask P.attn
      (applyNorm S cfg nc P.ln1_w P.ln1_b x)).1) nb np cfg.d_model :=
    shape_attnForward E S cfg mask P.attn _
      (shape_applyNorm S cfg nc P.ln1_w P.ln1_b hWF.1 hWF.2.1 hx)
  show subT3 (addT3 x _) x = _
  exact sub_add_cancel_t3 hx hattn

/-- Claim C8 witness: the concrete block at `cfgBase` on `x0`. -/
theorem resid_mid_additivity_inst :
    subT3 (blockForwardT (fun _ : ℚ => (1 : ℚ)) (fun _ : ℚ => (1 : ℚ))
        (fun a : ℚ => a) cfgBase NormChoice.lnPre blockP0
        (causalMaskMat cfgBase.n_ctx) x0).resid_mid
      (blockForwardT (fun _ : ℚ => (1 : ℚ)) (fun _ : ℚ => (1 : ℚ))
        (fun a : ℚ => a) cfgBase NormChoice.lnPre blockP0
        (causalMaskMat cfgBase.n_ctx) x0).resid_pre =
    (blockForwardT (fun _ : ℚ => (1 : ℚ)) (fun _ : ℚ => (1 : ℚ))
      (fun a : ℚ => a) cfgBase NormChoice.lnPre blockP0
      (causalMaskMat cfgBase.n_ctx) x0).attn_out :=
  resid_mid_additivity (fun _ : ℚ => (1 : ℚ)) (fun _ : ℚ => (1 : ℚ))
    (fun a : ℚ => a) cfgBase NormChoice.lnPre blockP0
    (causalMaskMat cfgBase.n_ctx) x0 1 2 (by decide) (by decide) (by decide)

/-- Claim C9: on a rectangular `[batch, position, d_model]` input with at
most `n_ctx` positions, `TransformerBlock.forward` and
`AttnOnlyBlock.forward` both return a tensor of exactly the input's shape,
for every constructed normalization variant. -/
theorem block_preserves_shape (E S act : ℚ → ℚ) (cfg : Config)
    (nc : NormChoice) (P : BlockParams) (mask : BMat) (x : T3)
    (nb np : Nat) (hx : isRect3 x nb np cfg.d_model) (_hnp : np ≤ cfg.n_ctx)
    (hWF : BlockParamsWF cfg P) :
    isRect3 (blockForwardT E S act cfg nc P mask x).resid_post
      nb np cfg.d_model ∧
    isRect3 (attnOnlyForwardT E S cfg nc P.ln1_w P.ln1_b P.attn mask
      x).resid_post nb np cfg.d_model := by
  have hattn : isRect3 ((attnForward E S cfg mask P.attn
      (applyNorm S cfg nc P.ln1_w P.ln1_b x)).1) nb np cfg.d_model :=
    shape_attnForward E S cfg mask P.attn _
      (shape_applyNorm S cfg nc P.ln1_w P.ln1_b hWF.1 hWF.2.1 hx)
  have hmid : isRect3 (addT3 x ((attnForward E S cfg mask P.attn
      (applyNorm S cfg nc P.ln1_w P.ln1_b x)).1)) nb np cfg.d_model :=
    rect_addT3 hx hattn
  constructor
  · show isRect3 (addT3 _ _) nb np cfg.d_model
    exact rect_addT3 hmid
      (shape_mlpForward act S cfg P.mlp
        (shape_applyNorm S cfg nc P.ln2_w P.ln2_b hWF.2.2.1 hWF.2.2.2.1 hmid))
  · show isRect3 (addT3 _ _) nb np cfg.d_model
    exact rect_addT3 hx hattn

/-- Claim C9 witness: the concrete block at `cfgBase` on `x0`
(shape `1 × 2 × 1`). -/
theorem block_preserves_shape_inst :
    isRect3 (blockForwardT (fun _ : ℚ => (1 : ℚ)) (fun _ : ℚ => (1 : ℚ))
      (fun a : ℚ => a) cfgBase NormChoice.lnPre blockP0
      (causalMaskMat cfgBase.n_ctx) x0).resid_post 1 2 cfgBase.d_model ∧
    isRect3 (attnOnlyForwardT (fun _ : ℚ => (1 : ℚ)) (fun _ : ℚ => (1 : ℚ))
      cfgBase NormChoice.lnPre blockP0.ln1_w blockP0.ln1_b blockP0.attn
      (causalMaskMat cfgBase.n_ctx) x0).resid_post 1 2 cfgBase.d_model :=
  block_preserves_shape (fun _ : ℚ => (1 : ℚ)) (fun _ : ℚ => (1 : ℚ))
    (fun a : ℚ => a) cfgBase NormChoice.lnPre blockP0
    (causalMaskMat cfgBase.n_ctx) x0 1 2 (by decide) (by decide) (by decide)

end ET
